import Mathlib

/-!
Shallow embedding of `src/dnsforever/authority.py` (class `DnsforeverAuthority`,
Python 2 + twisted.names).  Python strings are Lean `String`s; the string
operations used by the code (`str.lower`, `str.split('.')`, `str.split()`,
`str.split(None, 2)`, `'.'.join`) are re-implemented below by structural
recursion on the character list so that all definitions reduce in the kernel.
Python dicts keyed by strings are association lists with first-match lookup.
A Python exception escaping a method is modelled by an explicit `crash`
constructor, kept separate from the `defer.fail(...)` failure results.
-/

namespace Dnsforever

/-- Python whitespace as used by `str.split` with no separator argument. -/
def pyIsSpace (c : Char) : Bool :=
  c = ' ' || c = '\t' || c = '\n' || c = '\r' || c = '\x0b' || c = '\x0c'

/-- `str.lower()` (ASCII-focused, via `Char.toLower`, which is what the
    domain names handled by the code consist of). -/
def lowerName (s : String) : String :=
  String.mk (s.data.map Char.toLower)

/-- Helper for `str.split('.')`: split a character list at every dot. -/
def splitDotsAux : List Char → List (List Char)
  | [] => [[]]
  | c :: cs =>
    let rest := splitDotsAux cs
    if c = '.' then [] :: rest
    else
      match rest with
      | r :: rs => (c :: r) :: rs
      | [] => [[c]]

/-- `str.split('.')`: e.g. `"a.b" ↦ ["a", "b"]`, `"" ↦ [""]`. -/
def splitDots (s : String) : List String :=
  (splitDotsAux s.data).map String.mk

/-- `'.'.join(labels)`. -/
def joinDots : List String → String
  | [] => ""
  | [s] => s
  | s :: rest => s ++ "." ++ joinDots rest

/-- Drop leading Python whitespace. -/
def dropWs : List Char → List Char
  | [] => []
  | c :: cs => if pyIsSpace c then dropWs cs else c :: cs

/-- Take one whitespace-free token off the front, returning it and the rest. -/
def takeTok : List Char → List Char × List Char
  | [] => ([], [])
  | c :: cs =>
    if pyIsSpace c then ([], c :: cs)
    else
      let p := takeTok cs
      (c :: p.1, p.2)

/-- Helper for `str.split()` (no separator): split on whitespace runs,
    dropping empty fields; `acc` holds the current token reversed. -/
def splitWsAux : List Char → List Char → List (List Char)
  | [], acc => if acc.isEmpty then [] else [acc.reverse]
  | c :: cs, acc =>
    if pyIsSpace c then
      if acc.isEmpty then splitWsAux cs []
      else acc.reverse :: splitWsAux cs []
    else splitWsAux cs (c :: acc)

/-- `str.split()` with no arguments. -/
def splitWsS (s : String) : List String :=
  (splitWsAux s.data []).map String.mk

/-- `str.split(None, 2)`: at most two splits on whitespace runs, the third
    element (when present) is the untouched remainder after stripping the
    whitespace that separated it from the second token. -/
def splitMax2 (s : String) : List String :=
  match dropWs s.data with
  | [] => []
  | c0 :: cs0 =>
    let p0 := takeTok (c0 :: cs0)
    match dropWs p0.2 with
    | [] => [String.mk p0.1]
    | c1 :: cs1 =>
      let p1 := takeTok (c1 :: cs1)
      match dropWs p1.2 with
      | [] => [String.mk p0.1, String.mk p1.1]
      | rest => [String.mk p0.1, String.mk p1.1, String.mk rest]

-- ## Validation outcome of the numeric conversions the record constructors
-- run on their textual arguments.  All tokens reaching these checks are
-- whitespace-free (they come from str.split), so stripping is immaterial.

/-- Python `int(token)` success: an optional sign and one or more decimal
    digits. -/
def pyIntOk (s : String) : Bool :=
  match s.data with
  | [] => false
  | c :: cs =>
    if c = '+' || c = '-' then !cs.isEmpty && cs.all Char.isDigit
    else (c :: cs).all Char.isDigit

/-- Split at the first `E` (the caller has already uppercased the token). -/
def splitAtE : List Char → List Char × Option (List Char)
  | [] => ([], none)
  | c :: cs =>
    if c = 'E' then ([], some cs)
    else
      let p := splitAtE cs
      (c :: p.1, p.2)

/-- Float mantissa: `digits+ ('.' digits*)?` or `'.' digits+`. -/
def mantissaOk (cs : List Char) : Bool :=
  let ip := cs.takeWhile Char.isDigit
  let rest := cs.dropWhile Char.isDigit
  match rest with
  | [] => !ip.isEmpty
  | '.' :: frac => frac.all Char.isDigit && (!ip.isEmpty || !frac.isEmpty)
  | _ => false

/-- Float exponent digits after the `E`: optional sign, one or more
    digits. -/
def expDigitsOk : List Char → Bool
  | [] => false
  | c :: cs =>
    if c = '+' || c = '-' then !cs.isEmpty && cs.all Char.isDigit
    else (c :: cs).all Char.isDigit

/-- Python `float(token)` acceptance of an uppercased whitespace-free
    token, restricted to finite numeric literals; the INF and NAN spellings
    are rejected here because str2time feeds the float into int(), which
    raises on a non-finite value, so the raise/no-raise outcome is the
    same. -/
def floatLike (s : String) : Bool :=
  let cs :=
    match s.data with
    | c :: rest => if c = '+' || c = '-' then rest else c :: rest
    | [] => []
  match splitAtE cs with
  | (m, none) => mantissaOk m
  | (m, some e) => mantissaOk m && expDigitsOk e

/-- Raise/no-raise outcome of `twisted.names.dns.str2time(token)`: the
    token is uppercased; a trailing S/M/H/D/W/Y unit letter means
    float(prefix) (times the unit, then int() — conversions that succeed
    exactly when the prefix is a finite float literal), otherwise
    int(token). -/
def pyTimeOk (s : String) : Bool :=
  let u := s.data.map Char.toUpper
  match u.getLast? with
  | none => false
  | some c =>
    if c = 'S' || c = 'M' || c = 'H' || c = 'D' || c = 'W' || c = 'Y' then
      floatLike (String.mk u.dropLast)
    else pyIntOk (String.mk u)

def isHexChar (c : Char) : Bool :=
  c.isDigit || ('a' ≤ c && c ≤ 'f') || ('A' ≤ c && c ≤ 'F')

def hexCharVal (c : Char) : Nat :=
  if c.isDigit then c.toNat - 48
  else if 'a' ≤ c && c ≤ 'f' then c.toNat - 87
  else c.toNat - 55

def decVal (cs : List Char) : Nat :=
  cs.foldl (fun a c => a * 10 + (c.toNat - 48)) 0

def hexVal (cs : List Char) : Nat :=
  cs.foldl (fun a c => a * 16 + hexCharVal c) 0

def octVal (cs : List Char) : Nat :=
  cs.foldl (fun a c => a * 8 + (c.toNat - 48)) 0

/-- One component of an IPv4 literal under the classic inet_aton numeral
    rules: `0x` hex, leading-zero octal, or decimal; any trailing
    non-digit garbage rejects the whole address. -/
def atonComponent : List Char → Option Nat
  | [] => none
  | '0' :: 'x' :: rest =>
    if !rest.isEmpty && rest.all isHexChar then some (hexVal rest) else none
  | '0' :: 'X' :: rest =>
    if !rest.isEmpty && rest.all isHexChar then some (hexVal rest) else none
  | '0' :: rest =>
    if rest.all (fun c => '0' ≤ c && c ≤ '7') then some (octVal rest) else none
  | cs =>
    if cs.all Char.isDigit then some (decVal cs) else none

/-- Raise/no-raise outcome of `socket.inet_aton(token)`: one to four
    dot-separated numeric components with the per-count range limits of the
    classic a, a.b, a.b.c, a.b.c.d forms. -/
def inetAtonOk (s : String) : Bool :=
  match (splitDotsAux s.data).mapM atonComponent with
  | none => false
  | some [a] => decide (a < 4294967296)
  | some [a, b] => decide (a < 256) && decide (b < 16777216)
  | some [a, b, c] => decide (a < 256) && decide (b < 256) && decide (c < 65536)
  | some [a, b, c, d] =>
    decide (a < 256) && decide (b < 256) && decide (c < 256) && decide (d < 256)
  | some _ => false

/-- Split a character list at every colon. -/
def splitColonsAux : List Char → List (List Char)
  | [] => [[]]
  | c :: cs =>
    let rest := splitColonsAux cs
    if c = ':' then [] :: rest
    else
      match rest with
      | r :: rs => (c :: r) :: rs
      | [] => [[c]]

/-- Locate the first `::`, returning the characters before and after it. -/
def findDoubleColon : List Char → Option (List Char × List Char)
  | [] => none
  | ':' :: ':' :: rest => some ([], rest)
  | c :: cs =>
    match findDoubleColon cs with
    | some p => some (c :: p.1, p.2)
    | none => none

/-- One IPv6 group: one to four hex digits. -/
def hexGroupOk (cs : List Char) : Bool :=
  !cs.isEmpty && decide (cs.length ≤ 4) && cs.all isHexChar

/-- One byte of an embedded IPv4 quad: one to three decimal digits below
    256 (the permissive reading of leading zeros). -/
def v4PartOk (cs : List Char) : Bool :=
  !cs.isEmpty && decide (cs.length ≤ 3) && cs.all Char.isDigit &&
    decide (decVal cs < 256)

/-- A trailing embedded IPv4 quad inside an IPv6 literal. -/
def v4EmbeddedOk (cs : List Char) : Bool :=
  match splitDotsAux cs with
  | [a, b, c, d] => v4PartOk a && v4PartOk b && v4PartOk c && v4PartOk d
  | _ => false

/-- Validate one colon-separated group list (no empty group allowed); only
    the last group may be an embedded IPv4 quad, which weighs two 16-bit
    groups; returns the total group weight. -/
def v6Groups (allowV4 : Bool) : List (List Char) → Option Nat
  | [] => some 0
  | [g] =>
    if hexGroupOk g then some 1
    else if allowV4 && v4EmbeddedOk g then some 2
    else none
  | g :: gs =>
    if hexGroupOk g then (v6Groups allowV4 gs).map (· + 1) else none

/-- Raise/no-raise outcome of `socket.inet_pton(AF_INET6, token)`: at most
    one `::`, hex-digit groups, an optional trailing embedded IPv4 quad,
    and a group weight of exactly 8 without `::` or at most 7 with it. -/
def inetPtonOk (s : String) : Bool :=
  let cs := s.data
  match findDoubleColon cs with
  | none =>
    match v6Groups true (splitColonsAux cs) with
    | some n => decide (n = 8)
    | none => false
  | some (before, after) =>
    match findDoubleColon after with
    | some _ => false
    | none =>
      let lg :=
        if before.isEmpty then some 0 else v6Groups false (splitColonsAux before)
      let rg :=
        if after.isEmpty then some 0 else v6Groups true (splitColonsAux after)
      match lg, rg with
      | some a, some b => decide (a + b ≤ 7)
      | _, _ => false

-- ## Association lists standing in for Python dicts (first-match lookup).

/-- Dict read: `m[k]` / `m.get(k)`. -/
def alGet {α : Type} : List (String × α) → String → Option α
  | [], _ => none
  | p :: m, k => if p.1 = k then some p.2 else alGet m k

/-- Dict read with default: `m.get(k, d)`. -/
def alGetD {α : Type} (m : List (String × α)) (k : String) (d : α) : α :=
  (alGet m k).getD d

/-- Dict write: `m[k] = v` (replaces the binding in place, appends if new). -/
def alSet {α : Type} : List (String × α) → String → α → List (String × α)
  | [], k, v => [(k, v)]
  | p :: m, k, v => if p.1 = k then (k, v) :: m else p :: alSet m k v

/-- Dict delete: `del m[k]` (removes the binding when present). -/
def alDel {α : Type} : List (String × α) → String → List (String × α)
  | [], _ => []
  | p :: m, k => if p.1 = k then m else p :: alDel m k

-- ## Record model (twisted.names.dns records as the code uses them).

/-- The record types for which twisted.names.dns carries a `Record_<TYPE>`
    class reachable by the getattr in addRecord, plus the query-side
    wildcard `ALL` (`dns.ALL_RECORDS` = 255, which has no Record class). -/
inductive RType where
  | A
  | AAAA
  | A6
  | AFSDB
  | CNAME
  | DNAME
  | HINFO
  | MB
  | MD
  | MF
  | MG
  | MINFO
  | MR
  | MX
  | NAPTR
  | NS
  | NULL
  | PTR
  | RP
  | SOA
  | SPF
  | SRV
  | TXT
  | WKS
  | ALL
deriving DecidableEq, Repr

/-- A record object as built by addRecord: `Record_<TYPE>(*rdata)` with
    `r.ttl = ttl`.  The textual constructor arguments are kept as the split
    field list; the owner name lives in the zone dict key, not here. -/
structure DRecord where
  type : RType
  ttl : Nat
  rdata : List String
deriving DecidableEq, Repr

/-- `record.payload.name.name` for the name-bearing types: the CNAME and NS
    constructors take the target name as first argument, Record_MX as second
    (after the preference); missing arguments default to the empty name. -/
def payloadName (r : DRecord) : String :=
  match r.type with
  | RType.MX => (r.rdata.drop 1).headD ""
  | _ => r.rdata.headD ""

/-- `dns.RRHeader(name, type, dns.IN, ttl, record, auth=...)`; the class
    argument is the constant dns.IN in every construction and is omitted. -/
structure RRHeader where
  name : String
  type : RType
  ttl : Nat
  payload : DRecord
  auth : Bool
deriving DecidableEq, Repr

-- ## The zone store.

/-- One zone dict: owner name (lowercased) to its ordered record list. -/
abbrev ZoneData := List (String × List DRecord)

/-- The mutable state of DnsforeverAuthority: `self.zones` (a defaultdict
    whose absent keys read as None) and `self._last_update`.  The
    defaultdict side effect of inserting None on a missing read is
    observationally irrelevant (None entries are falsy everywhere), so reads
    are modelled as pure Option lookups. -/
structure Store where
  zones : List (String × ZoneData)
  lastUpdate : Int
deriving DecidableEq, Repr

/-- Python truthiness of `self.zones[z]`: a present, nonempty zone dict. -/
def zoneTruthy (st : Store) (z : String) : Bool :=
  match alGet st.zones z with
  | some zn => !zn.isEmpty
  | none => false

/-- `'.'.join(labels[-i:])`: the dotted suffix made of the last `i` labels. -/
def suffixName (labels : List String) (i : Nat) : String :=
  joinDots (labels.drop (labels.length - i))

/-- The loop of `_lookup_records`: `for i in range(len(labels), 0, -1)`,
    returning the first truthy `self.zones[zone_name]`. -/
def lookupRecordsAux (st : Store) (labels : List String) : Nat → Option ZoneData
  | 0 => none
  | i + 1 =>
    let zoneName := suffixName labels (i + 1)
    if zoneTruthy st zoneName then alGet st.zones zoneName
    else lookupRecordsAux st labels i

/-- `_lookup_records(name)`.  Note that the second component of the returned
    pair is the `name` argument itself, in every branch of the source. -/
def lookupRecords (st : Store) (name : String) : Option ZoneData × String :=
  let labels := splitDots (lowerName name)
  (lookupRecordsAux st labels labels.length, name)

-- ## Additional processing (`_additionalRecords`).

/-- `_ADDITIONAL_PROCESSING_TYPES = (dns.CNAME, dns.MX, dns.NS)`. -/
def additionalProcessingTypes : List RType := [RType.CNAME, RType.MX, RType.NS]

/-- `_ADDRESS_TYPES = (dns.A, dns.AAAA)`. -/
def addressTypes : List RType := [RType.A, RType.AAAA]

/-- The generator body of `_additionalRecords`, over the snapshot
    `answer + authority` taken when the generator first runs. -/
def additionalRecordsAux (st : Store) : List RRHeader → List RRHeader
  | [] => []
  | record :: rest =>
    (if record.type ∈ additionalProcessingTypes then
      let name := payloadName record.payload
      match lookupRecords st name with
      | (none, _) => []
      | (some records, _) =>
        (alGetD records (lowerName name) []).filterMap fun rec =>
          if rec.type ∈ addressTypes then
            some { name := name, type := rec.type, ttl := rec.ttl,
                   payload := rec, auth := true }
          else none
    else []) ++ additionalRecordsAux st rest

/-- `_additionalRecords(answer, authority)`, fully forced. -/
def additionalRecords (st : Store) (answer authority : List RRHeader) :
    List RRHeader :=
  additionalRecordsAux st (answer ++ authority)

-- ## The resolution algorithm (`_lookup`).

inductive DnsError where
  | domainError (name : String)
  | authoritativeDomainError (name : String)
deriving DecidableEq, Repr

/-- Outcome of a resolution-side call: a failed deferred, a Python exception
    raised out of the method, or a successful (answer, authority, additional)
    triple. -/
inductive LookupResult where
  | fail (e : DnsError)
  | crash
  | ok (answer authority additional : List RRHeader)
deriving DecidableEq, Repr

/-- Accumulators of the `for record in domain_records` loop, plus the local
    variables `soa` and `ttl` which stay unbound (None here) until first
    assigned. -/
structure LoopState where
  results : List RRHeader
  authority : List RRHeader
  cnames : List RRHeader
  soa : Option DRecord
  lastTtl : Option Nat
deriving DecidableEq, Repr

/-- One iteration of the record loop in `_lookup`. -/
def lookupStep (name zoneName : String) (type : RType) (s : LoopState)
    (record : DRecord) : LoopState :=
  let ttl := record.ttl
  let s1 :=
    if record.type = RType.NS ∧ lowerName name ≠ lowerName zoneName then
      { s with authority := s.authority ++
          [{ name := name, type := record.type, ttl := ttl, payload := record,
             auth := false }] }
    else if record.type = type ∨ type = RType.ALL then
      { s with results := s.results ++
          [{ name := name, type := record.type, ttl := ttl, payload := record,
             auth := true }] }
    else s
  let s2 :=
    if record.type = RType.CNAME then
      { s1 with cnames := s1.cnames ++
          [{ name := name, type := record.type, ttl := ttl, payload := record,
             auth := true }] }
    else s1
  let s3 := if record.type = RType.SOA then { s2 with soa := some record } else s2
  { s3 with lastTtl := some ttl }

/-- The whole record loop. -/
def lookupLoop (name zoneName : String) (type : RType) :
    LoopState → List DRecord → LoopState
  | s, [] => s
  | s, r :: rs => lookupLoop name zoneName type (lookupStep name zoneName type s r) rs

/-- The response-assembly tail of `_lookup` after the record loop: the
    CNAME fallback for an empty answer, the additional processing and its
    placement keyed on `if cnames:`, and the negative-answer SOA synthesis
    reading the loop locals `ttl` and `soa` — when `soa` was never assigned
    (no SOA record at the queried name) the source raises NameError there,
    modelled as `crash`. -/
def assembleResponse (st : Store) (zoneName : String) (s : LoopState) :
    LookupResult :=
  let results := if s.results.isEmpty then s.cnames else s.results
  let addInfo := additionalRecords st results s.authority
  let results2 := if s.cnames.isEmpty then results else results ++ addInfo
  let additional := if s.cnames.isEmpty then addInfo else []
  if results2.isEmpty && s.authority.isEmpty then
    match s.soa, s.lastTtl with
    | some soa, some ttl =>
      LookupResult.ok results2
        (s.authority ++
          [{ name := zoneName, type := RType.SOA, ttl := ttl,
             payload := soa, auth := true }])
        additional
    | _, _ => LookupResult.crash
  else LookupResult.ok results2 s.authority additional

/-- `_lookup(name, cls, type)`: the class is disregarded by the source. -/
def lookup (st : Store) (name : String) (_cls : String) (type : RType) :
    LookupResult :=
  match lookupRecords st (lowerName name) with
  | (none, _) => LookupResult.fail (DnsError.domainError name)
  | (some domainZone, zoneName) =>
    match alGet domainZone (lowerName name) with
    | none => LookupResult.fail (DnsError.authoritativeDomainError name)
    | some domainRecords =>
      if domainRecords.isEmpty then
        LookupResult.fail (DnsError.authoritativeDomainError name)
      else
        assembleResponse st zoneName
          (lookupLoop name zoneName type
            { results := [], authority := [], cnames := [], soa := none,
              lastTtl := none } domainRecords)

/-- `lookupZone(name)`: when the zone dict is truthy, `for record in
    self.zones[name]` iterates the owner-name keys (strings), and
    `isinstance(record, dns.SOA)` passes the integer constant dns.SOA = 6
    as second argument, which raises TypeError on the first iteration; a
    truthy dict is nonempty, so every present zone raises.  A falsy zone
    leaves `soa` as None and fails with DomainError. -/
def lookupZone (st : Store) (name0 : String) : LookupResult :=
  let name := lowerName name0
  if zoneTruthy st name then LookupResult.crash
  else LookupResult.fail (DnsError.domainError name)

/-- `delZone(zone_name)`: delete only when truthy. -/
def delZone (st : Store) (zoneName : String) : Store :=
  if zoneTruthy st zoneName then { st with zones := alDel st.zones zoneName }
  else st

-- ## addRecord.

inductive AddError where
  | unsupportedRecordType (typeName : String)
  | constructorError
deriving DecidableEq, Repr

/-- The `Record_<TYPE>` classes reachable by `getattr(dns, 'Record_%s' %
    type)` in twisted.names.dns — the full class set of the library, one
    per name below; the getattr name lookup is case sensitive, so every
    other string finds no class and addRecord raises NotImplementedError. -/
def recordClassFor : String → Option RType
  | "A" => some RType.A
  | "AAAA" => some RType.AAAA
  | "A6" => some RType.A6
  | "AFSDB" => some RType.AFSDB
  | "CNAME" => some RType.CNAME
  | "DNAME" => some RType.DNAME
  | "HINFO" => some RType.HINFO
  | "MB" => some RType.MB
  | "MD" => some RType.MD
  | "MF" => some RType.MF
  | "MG" => some RType.MG
  | "MINFO" => some RType.MINFO
  | "MR" => some RType.MR
  | "MX" => some RType.MX
  | "NAPTR" => some RType.NAPTR
  | "NS" => some RType.NS
  | "NULL" => some RType.NULL
  | "PTR" => some RType.PTR
  | "RP" => some RType.RP
  | "SOA" => some RType.SOA
  | "SPF" => some RType.SPF
  | "SRV" => some RType.SRV
  | "TXT" => some RType.TXT
  | "WKS" => some RType.WKS
  | _ => none

/-- How one positional constructor parameter of a Record class validates
    the textual argument it receives. -/
inductive FieldKind where
  | txt
  | int
  | time
  | ipv4
  | ipv6
deriving DecidableEq, Repr

/-- The positional parameter lists of the twisted.names.dns Record class
    constructors (the trailing ttl parameter included — it is passed
    through str2time): `txt` parameters (names, character strings, NULL
    payloads) accept anything, `int` run int(), `time` run str2time,
    `ipv4` run socket.inet_aton and `ipv6` socket.inet_pton.  `none` marks
    the variadic TXT-style constructors (`Record_TXT(*data)`, Record_SPF)
    that accept any argument list unchecked.  `ALL` has no Record class and
    never reaches this table. -/
def ctorSpec : RType → Option (List FieldKind)
  | RType.A => some [FieldKind.ipv4, FieldKind.time]
  | RType.AAAA => some [FieldKind.ipv6, FieldKind.time]
  | RType.A6 => some [FieldKind.int, FieldKind.ipv6, FieldKind.txt, FieldKind.time]
  | RType.AFSDB => some [FieldKind.int, FieldKind.txt, FieldKind.time]
  | RType.CNAME => some [FieldKind.txt, FieldKind.time]
  | RType.DNAME => some [FieldKind.txt, FieldKind.time]
  | RType.HINFO => some [FieldKind.txt, FieldKind.txt, FieldKind.time]
  | RType.MB => some [FieldKind.txt, FieldKind.time]
  | RType.MD => some [FieldKind.txt, FieldKind.time]
  | RType.MF => some [FieldKind.txt, FieldKind.time]
  | RType.MG => some [FieldKind.txt, FieldKind.time]
  | RType.MINFO => some [FieldKind.txt, FieldKind.txt, FieldKind.time]
  | RType.MR => some [FieldKind.txt, FieldKind.time]
  | RType.MX => some [FieldKind.int, FieldKind.txt, FieldKind.time]
  | RType.NAPTR => some [FieldKind.int, FieldKind.int, FieldKind.txt,
      FieldKind.txt, FieldKind.txt, FieldKind.txt, FieldKind.time]
  | RType.NS => some [FieldKind.txt, FieldKind.time]
  | RType.NULL => some [FieldKind.txt, FieldKind.time]
  | RType.PTR => some [FieldKind.txt, FieldKind.time]
  | RType.RP => some [FieldKind.txt, FieldKind.txt, FieldKind.time]
  | RType.SOA => some [FieldKind.txt, FieldKind.txt, FieldKind.time,
      FieldKind.time, FieldKind.time, FieldKind.time, FieldKind.time,
      FieldKind.time]
  | RType.SPF => none
  | RType.SRV => some [FieldKind.int, FieldKind.int, FieldKind.int,
      FieldKind.txt, FieldKind.time]
  | RType.TXT => none
  | RType.WKS => some [FieldKind.ipv4, FieldKind.int, FieldKind.txt,
      FieldKind.time]
  | RType.ALL => some []

def fieldOk : FieldKind → String → Bool
  | FieldKind.txt, _ => true
  | FieldKind.int, s => pyIntOk s
  | FieldKind.time, s => pyTimeOk s
  | FieldKind.ipv4, s => inetAtonOk s
  | FieldKind.ipv6, s => inetPtonOk s

/-- Raise/no-raise outcome of `record(*rdata)`: more positional arguments
    than parameters raise TypeError, and every supplied argument must pass
    its parameter validation (socket.error / ValueError escape
    otherwise); missing trailing arguments take the defaults and never
    raise. -/
def ctorOk (rt : RType) (tokens : List String) : Bool :=
  match ctorSpec rt with
  | none => true
  | some params =>
    decide (tokens.length ≤ params.length) &&
      (tokens.zip params).all fun p => fieldOk p.2 p.1

/-- The rdata preparation of addRecord: TXT keeps the remainder as one
    opaque string, every other type splits it on whitespace. -/
def pyRdata (type rdata : String) : List String :=
  if type = "TXT" then [rdata] else splitWsS rdata

/-- `addRecord(zone_name, ttl, type, subdomain, cls, rdata)`.  The `cls`
    argument is never inspected by the source.  The lazy creation of the
    zone entry happens before the record-class check, so a failing call
    still leaves the (falsy) empty zone entry behind.  When the
    `record(*rdata)` constructor raises (modelled by `ctorOk`), the
    exception escapes before `r.ttl = ttl` and the append run, so nothing
    is appended. -/
def addRecord (st : Store) (zoneName : String) (ttl : Nat) (type : String)
    (subdomain : String) (_cls : String) (rdata : String) :
    Store × Option AddError :=
  let st1 :=
    if zoneTruthy st zoneName then st
    else { st with zones := alSet st.zones zoneName [] }
  let domain := if subdomain = "@" then zoneName else subdomain ++ "." ++ zoneName
  match recordClassFor type with
  | none => (st1, some (AddError.unsupportedRecordType type))
  | some rt =>
    let toks := pyRdata type rdata
    if ctorOk rt toks then
      let r : DRecord := { type := rt, ttl := ttl, rdata := toks }
      let zone := alGetD st1.zones zoneName []
      let zone2 :=
        alSet zone (lowerName domain) (alGetD zone (lowerName domain) [] ++ [r])
      ({ st1 with zones := alSet st1.zones zoneName zone2 }, none)
    else (st1, some AddError.constructorError)

-- ## The synchronization cycle (`update` / `http_callback`).

inductive SyncError where
  | addFailed (e : AddError)
  | indexError
deriving DecidableEq, Repr

/-- The guarded property setter of `last_update`: assign only when strictly
    greater than the current value. -/
def setLastUpdate (cur t : Int) : Int :=
  if cur < t then t else cur

/-- One record line: `record = record.split(None, 2)` then
    `self.addRecord(name, 300, record[1], record[0], 'IN', record[2])`.
    Fewer than three fields raises IndexError while the argument list is
    built, before addRecord runs. -/
def applyLine (st : Store) (zoneName : String) (line : String) :
    Store × Option SyncError :=
  match splitMax2 line with
  | [t0, t1, t2] =>
    match addRecord st zoneName 300 t1 t0 "IN" t2 with
    | (st2, none) => (st2, none)
    | (st2, some e) => (st2, some (SyncError.addFailed e))
  | _ => (st, some SyncError.indexError)

/-- The `for record in info['records']` loop; a raised exception aborts the
    loop, keeping the mutations already made. -/
def applyLines (st : Store) (zoneName : String) :
    List String → Store × Option SyncError
  | [] => (st, none)
  | line :: rest =>
    match applyLine st zoneName line with
    | (st2, none) => applyLines st2 zoneName rest
    | (st2, some e) => (st2, some e)

/-- One zone entry of the decoded JSON sync response. -/
structure ZoneUpdate where
  lastUpdate : Int
  records : List String
deriving DecidableEq, Repr

/-- Processing of one `(name, info)` pair inside `http_callback`: guarded
    watermark assignment, then delZone, then all record lines. -/
def applyZone (st : Store) (name : String) (info : ZoneUpdate) :
    Store × Option SyncError :=
  let st1 := { st with lastUpdate := setLastUpdate st.lastUpdate info.lastUpdate }
  let st2 := delZone st1 name
  applyLines st2 name info.records

/-- The whole `http_callback` body over the decoded response items; a raised
    exception aborts the remaining zones, keeping the mutations already
    made. -/
def httpCallback (st : Store) :
    List (String × ZoneUpdate) → Store × Option SyncError
  | [] => (st, none)
  | (name, info) :: rest =>
    match applyZone st name info with
    | (st2, none) => httpCallback st2 rest
    | (st2, some e) => (st2, some e)

-- ## Observation helpers used by the theorems.

/-- The record list the resolution loop of `_lookup` runs over for a query
    name (empty when no zone or no entry). -/
def recordsAt (st : Store) (name : String) : List DRecord :=
  match lookupRecords st (lowerName name) with
  | (some zone, _) => alGetD zone (lowerName name) []
  | (none, _) => []

/-- Whether a record list holds a CNAME record. -/
def hasCName (recs : List DRecord) : Bool :=
  recs.any fun r => r.type == RType.CNAME

/-- The record list stored for owner `d` inside zone `z`. -/
def zoneOwnersD (st : Store) (z d : String) : List DRecord :=
  alGetD (alGetD st.zones z []) d []

/-- Every record anywhere in the store carries TTL 300. -/
def allTtl300 (st : Store) : Bool :=
  st.zones.all fun z => z.2.all fun o => o.2.all fun r => r.ttl == 300

-- ## Generic association-list lemmas.

theorem all_alDel {α : Type} (p : String × α → Bool) (m : List (String × α))
    (k : String) (h : m.all p = true) : (alDel m k).all p = true := by
  induction m with
  | nil => simp [alDel]
  | cons q m ih =>
    simp only [List.all_cons, Bool.and_eq_true] at h
    by_cases hq : q.1 = k
    · simpa [alDel, hq] using h.2
    · simp [alDel, hq, h.1, ih h.2]

theorem all_alSet {α : Type} (p : String × α → Bool) (m : List (String × α))
    (k : String) (v : α) (h : m.all p = true) (hv : p (k, v) = true) :
    (alSet m k v).all p = true := by
  induction m with
  | nil => simp [alSet, hv]
  | cons q m ih =>
    simp only [List.all_cons, Bool.and_eq_true] at h
    by_cases hq : q.1 = k
    · simp [alSet, hq, hv, h.2]
    · simp [alSet, hq, h.1, ih h.2]

theorem alGet_all {α : Type} (p : String × α → Bool) (m : List (String × α))
    (k : String) (v : α) (h : m.all p = true) (hg : alGet m k = some v) :
    p (k, v) = true := by
  induction m with
  | nil => simp [alGet] at hg
  | cons q m ih =>
    simp only [List.all_cons, Bool.and_eq_true] at h
    by_cases hq : q.1 = k
    · simp only [alGet, hq, if_pos] at hg
      cases hg
      have := h.1
      rcases q with ⟨qk, qv⟩
      subst hq
      simpa using this
    · simp only [alGet, hq, if_neg, ite_false] at hg
      exact ih h.2 hg

def c1soa : DRecord :=
  ⟨RType.SOA, 300, ["ns.example.com", "admin.example.com", "1", "2", "3", "4", "5"]⟩

def c1ns : DRecord := ⟨RType.NS, 300, ["ns1.example.net"]⟩

def c1store : Store :=
  ⟨[("example.com", [("example.com", [c1soa]), ("sub.example.com", [c1ns])])], 0⟩

/-- C1: the claim says resolve puts NS records held at a non-apex name into
    the authority section with authoritative = false and never into the
    answer.  On the code, `_lookup_records` returns the query name itself as
    `zone_name`, so the `name.lower() != zone_name.lower()` delegation guard
    is always false and the referral branch is dead: an NS query for the
    non-apex name `sub.example.com` of zone `example.com` returns the NS
    record in the answer section with authoritative = true and an empty
    authority section. -/
theorem c1_ns_referral_branch_dead :
    lookup c1store "sub.example.com" "IN" RType.NS =
      LookupResult.ok
        [{ name := "sub.example.com", type := RType.NS, ttl := 300,
           payload := c1ns, auth := true }]
        [] [] := by decide

-- ## C2: what `_lookup_records` returns.

def c2zone : ZoneData :=
  [("example.com",
    [⟨RType.SOA, 300, ["ns.example.com", "admin.example.com", "1", "2", "3", "4", "5"]⟩])]

def c2store : Store := ⟨[("example.com", c2zone)], 0⟩

/-- C2 counterexample: the claim says the second component of the returned
    pair is the matched zone name.  With only the zone `example.com` present
    (so that is the matched zone), looking up `www.example.com` returns the
    query name itself — not `example.com` — as second component. -/
theorem c2_counterexample :
    (lookupRecords c2store "www.example.com").1 = some c2zone ∧
    (lookupRecords c2store "www.example.com").2 = "www.example.com" ∧
    ("www.example.com" : String) ≠ "example.com" := by decide

/-- Downward loop of `_lookup_records`: once every suffix longer than `k`
    labels is falsy and the `k`-label suffix is truthy, the loop returns the
    zone stored under the `k`-label suffix. -/
theorem lookupRecordsAux_finds (st : Store) (labels : List String) (k : Nat)
    (hk1 : 1 ≤ k)
    (ht : zoneTruthy st (suffixName labels k) = true)
    (hlonger : ∀ i, k < i → i ≤ labels.length →
      zoneTruthy st (suffixName labels i) = false) :
    ∀ j, k ≤ j → j ≤ labels.length →
      lookupRecordsAux st labels j = alGet st.zones (suffixName labels k) := by
  intro j
  induction j with
  | zero => intro h1 _; omega
  | succ i ih =>
    intro h1 h2
    by_cases hik : k = i + 1
    · subst hik
      simp [lookupRecordsAux, ht]
    · have hki : k ≤ i := by omega
      have hfalse := hlonger (i + 1) (by omega) h2
      simp only [lookupRecordsAux, hfalse, Bool.false_eq_true, if_false]
      exact ih hki (by omega)

/-- C2 (amended): the record lookup splits the lowercased name into labels
    and tries the full name then each shorter dotted suffix; for every zone
    `z` that is a (truthy-) present suffix of the name with no longer present
    suffix, the lookup returns the zone stored under `z` as first component —
    but the second component of the pair is always the queried name itself,
    not the matched zone name (and `(none, n)` when no suffix is present). -/
theorem c2_lookupRecords_longest_suffix (st : Store) (n z : String) (k : Nat)
    (hk1 : 1 ≤ k)
    (hklen : k ≤ (splitDots (lowerName n)).length)
    (hz : z = suffixName (splitDots (lowerName n)) k)
    (ht : zoneTruthy st z = true)
    (hlonger : ∀ i, k < i → i ≤ (splitDots (lowerName n)).length →
      zoneTruthy st (suffixName (splitDots (lowerName n)) i) = false) :
    (lookupRecords st n).1 = alGet st.zones z ∧
    (lookupRecords st n).2 = n := by
  subst hz
  refine ⟨?_, rfl⟩
  exact lookupRecordsAux_finds st _ k hk1 ht hlonger _ hklen le_rfl

def c2wzone : ZoneData :=
  [("example.com",
    [⟨RType.SOA, 300, ["ns.example.com", "admin.example.com", "1", "2", "3", "4", "5"]⟩])]

def c2wstore : Store := ⟨[("example.com", c2wzone)], 0⟩

/-- C2 witness: the amended theorem applied to the zone `example.com` and
    the query name `www.example.com` (two labels match, the three-label
    suffix is absent). -/
theorem c2_lookupRecords_longest_suffix_witness :
    (lookupRecords c2wstore "www.example.com").1 =
      alGet c2wstore.zones "example.com" ∧
    (lookupRecords c2wstore "www.example.com").2 = "www.example.com" :=
  c2_lookupRecords_longest_suffix c2wstore "www.example.com" "example.com" 2
    (by decide) (by decide) (by decide) (by decide)
    (by
      intro i h1 h2
      have h3 : i = 3 := by
        have : (splitDots (lowerName "www.example.com")).length = 3 := by decide
        omega
      subst h3
      decide)

-- ## C3: lookupZone.

def c3soa : DRecord :=
  ⟨RType.SOA, 300, ["ns.example.com", "admin.example.com", "1", "2", "3", "4", "5"]⟩

def c3store : Store := ⟨[("example.com", [("example.com", [c3soa])])], 0⟩

/-- C3: the claim says the zone-listing operation succeeds for a zone with
    an apex SOA, returning the SOA-envelope answer.  On the code, the SOA
    search iterates the owner-name keys of the zone dict and calls
    isinstance with the integer constant dns.SOA as second argument, which
    raises TypeError on the first key: for the present zone `example.com`
    with its apex SOA the call raises instead of succeeding. -/
theorem c3_lookupZone_raises :
    lookupZone c3store "example.com" = LookupResult.crash := by decide

-- ## C4: SOA synthesis on an empty answer.

def c4store : Store :=
  ⟨[("example.com",
     [("example.com",
       [⟨RType.SOA, 300, ["ns.example.com", "admin.example.com", "1", "2", "3", "4", "5"]⟩]),
      ("www.example.com", [⟨RType.A, 300, ["1.2.3.4"]⟩])])], 0⟩

/-- C4: the claim says that when a zone is found, the queried name has
    records, and both computed sections are empty, resolve appends the zone
    SOA to the authority section.  On the code the `soa` local is assigned
    only when an SOA record sits at the queried name itself; querying MX at
    `www.example.com` (which holds only an A record, the zone SOA being at
    the apex) reaches the synthesis branch with `soa` unbound and raises
    NameError instead of returning the SOA. -/
theorem c4_soa_synthesis_raises :
    lookup c4store "www.example.com" "IN" RType.MX = LookupResult.crash := by
  decide

-- ## C5: resolve never raises.

def c5store : Store :=
  ⟨[("example.org",
     [("example.org",
       [⟨RType.SOA, 300, ["ns.example.org", "admin.example.org", "1", "2", "3", "4", "5"]⟩]),
      ("www.example.org", [⟨RType.A, 300, ["9.9.9.9"]⟩])])], 0⟩

/-- C5: the claim says resolve always terminates without raising, delivering
    every failure as a failed result value.  On the code, a TXT query for
    `www.example.org` (a name holding only an A record) leaves answer and
    authority empty and reaches the negative-answer synthesis with the `soa`
    local never assigned, raising NameError out of `_lookup`. -/
theorem c5_lookup_raises :
    lookup c5store "www.example.org" "IN" RType.TXT = LookupResult.crash := by
  decide

-- ## addRecord behavior (shared by C6 and C8).

def c7resp10 : List (String × ZoneUpdate) := [("z.com", ⟨10, ["@ A 1.2.3.4"]⟩)]

def c7resp5 : List (String × ZoneUpdate) := [("z.com", ⟨5, ["@ A 5.6.7.8"]⟩)]

def c7st1 : Store := (httpCallback ⟨[], 0⟩ c7resp10).1

def c7st2 : Store := (httpCallback c7st1 c7resp5).1

/-- C7 counterexample: the claim says the stale (5) response record data is
    not applied once the 10 response has been processed.  After responses
    with last_update 10 then 5 for zone `z.com`, the watermark is still 10
    but the zone now holds the record of the stale response (the zone is
    deleted and repopulated regardless of the watermark guard). -/
theorem c7_counterexample :
    c7st2.lastUpdate = 10 ∧
    zoneOwnersD c7st2 "z.com" "z.com" =
      [{ type := RType.A, ttl := 300, rdata := ["5.6.7.8"] }] ∧
    zoneOwnersD c7st2 "z.com" "z.com" ≠ zoneOwnersD c7st1 "z.com" "z.com" := by
  decide

/-- C7 (amended): the lastUpdate watermark only ever increases — an
    assignment is accepted exactly when the new value is strictly greater —
    and in the 10-then-5 scenario the watermark remains 10, but the stale
    response record data IS applied to the store: the zone is deleted and
    repopulated from the stale response regardless of the watermark guard. -/
theorem c7_watermark_monotone_but_stale_applied :
    (∀ cur t : Int,
      setLastUpdate cur t = cur ∨ (cur < t ∧ setLastUpdate cur t = t)) ∧
    c7st2.lastUpdate = 10 ∧
    zoneOwnersD c7st2 "z.com" "z.com" =
      [{ type := RType.A, ttl := 300, rdata := ["5.6.7.8"] }] := by
  refine ⟨?_, by decide, by decide⟩
  intro cur t
  unfold setLastUpdate
  by_cases h : cur < t
  · exact Or.inr ⟨h, if_pos h⟩
  · exact Or.inl (if_neg h)

-- ## C8: addRecord error handling and append semantics.

/-- The CNAME headers the record loop of `_lookup` accumulates. -/
def cnamesOf (name : String) (recs : List DRecord) : List RRHeader :=
  (recs.filter fun r => r.type == RType.CNAME).map fun r =>
    { name := name, type := r.type, ttl := r.ttl, payload := r, auth := true }

theorem lookupStep_cnames (name zoneName : String) (type : RType)
    (s : LoopState) (r : DRecord) :
    (lookupStep name zoneName type s r).cnames =
      s.cnames ++
        if r.type = RType.CNAME then
          [{ name := name, type := r.type, ttl := r.ttl, payload := r,
             auth := true }]
        else [] := by
  simp only [lookupStep]
  split_ifs <;> simp_all

theorem lookupLoop_cnames (name zoneName : String) (type : RType)
    (recs : List DRecord) :
    ∀ s : LoopState, (lookupLoop name zoneName type s recs).cnames =
      s.cnames ++ cnamesOf name recs := by
  induction recs with
  | nil => intro s; simp [lookupLoop, cnamesOf]
  | cons r rs ih =>
    intro s
    simp only [lookupLoop]
    rw [ih, lookupStep_cnames]
    by_cases h : r.type = RType.CNAME
    · simp [cnamesOf, List.filter_cons, h]
    · simp [cnamesOf, List.filter_cons, h]

theorem cnamesOf_eq_nil_iff (name : String) (recs : List DRecord) :
    cnamesOf name recs = [] ↔ hasCName recs = false := by
  simp only [cnamesOf, hasCName, List.map_eq_nil_iff, List.filter_eq_nil_iff,
    List.any_eq_false]

/-- Placement of the computed additional records in `assembleResponse`: the
    additional section is empty exactly when CNAME candidates exist (they
    are then folded into the answer); otherwise the additional section is
    the computed additional records of the final answer and authority. -/
theorem assembleResponse_additional (st : Store) (zoneName : String)
    (s : LoopState) (ans auth add : List RRHeader)
    (h : assembleResponse st zoneName s = LookupResult.ok ans auth add) :
    (s.cnames ≠ [] → add = []) ∧
    (s.cnames = [] → add = additionalRecords st ans auth) := by
  by_cases hc : s.cnames = []
  · simp only [assembleResponse, hc, List.isEmpty_nil, if_true] at h
    refine ⟨fun hne => absurd hc hne, fun _ => ?_⟩
    rcases hre : if s.results.isEmpty then ([] : List RRHeader) else s.results
      with _ | ⟨r0, rs0⟩
    · rw [hre] at h
      simp only [List.isEmpty_nil, Bool.true_and] at h
      rcases hau : s.authority with _ | ⟨a0, as0⟩
      · rw [hau] at h
        simp only [List.isEmpty_nil, if_true] at h
        rcases hsoa : s.soa with _ | soa
        all_goals rcases httl : s.lastTtl with _ | ttl
        all_goals rw [hsoa, httl] at h
        · exact absurd h (by simp)
        · exact absurd h (by simp)
        · exact absurd h (by simp)
        · have h2 : LookupResult.ok ([] : List RRHeader)
              [{ name := zoneName, type := RType.SOA, ttl := ttl,
                 payload := soa, auth := true }]
              (additionalRecords st [] []) = LookupResult.ok ans auth add := h
          cases h2
          simp [additionalRecords, additionalRecordsAux, additionalProcessingTypes]
      · rw [hau] at h
        simp only [List.isEmpty_cons, Bool.and_false, Bool.false_eq_true,
          if_false] at h
        cases h
        rw [← hau, ← hre]
    · rw [hre] at h
      simp only [List.isEmpty_cons, Bool.false_and, Bool.false_eq_true,
        if_false] at h
      cases h
      rw [← hre]
  · have hc2 : s.cnames.isEmpty = false := by
      cases hcn : s.cnames with
      | nil => exact absurd hcn hc
      | cons a l => simp
    refine ⟨fun _ => ?_, fun heq => absurd heq hc⟩
    simp only [assembleResponse, hc2, Bool.false_eq_true, if_false] at h
    have hres : (if s.results.isEmpty then s.cnames else s.results) ≠ [] := by
      split
      · exact hc
      · next hne => simpa [List.isEmpty_iff] using hne
    rcases hre2 : (if s.results.isEmpty then s.cnames else s.results) ++
        additionalRecords st (if s.results.isEmpty then s.cnames else s.results)
          s.authority with _ | ⟨r0, rs0⟩
    · exact absurd (List.append_eq_nil.mp hre2).1 hres
    · rw [hre2] at h
      simp only [List.isEmpty_cons, Bool.false_and, Bool.false_eq_true,
        if_false] at h
      cases h
      rfl

def c9cname : DRecord := ⟨RType.CNAME, 300, ["host.example.com"]⟩

def c9a : DRecord := ⟨RType.A, 300, ["1.2.3.4"]⟩

def c9store : Store :=
  ⟨[("example.com",
     [("example.com",
       [⟨RType.SOA, 300, ["ns.example.com", "admin.example.com", "1", "2", "3", "4", "5"]⟩]),
      ("www.example.com", [c9cname]),
      ("host.example.com", [c9a])])], 0⟩

/-- C9 counterexample: the claim says the additional records are appended
    to the answer exactly when the answer derives from the empty-answer
    CNAME replacement.  A CNAME query for `www.example.com` matches the
    CNAME record directly (the answer is not a replacement), yet the
    resolvable A record of the CNAME target is still appended to the answer
    and the additional section stays empty, because the code keys the
    placement on the mere presence of CNAME records at the name. -/
theorem c9_counterexample :
    lookup c9store "www.example.com" "IN" RType.CNAME =
      LookupResult.ok
        [{ name := "www.example.com", type := RType.CNAME, ttl := 300,
           payload := c9cname, auth := true },
         { name := "host.example.com", type := RType.A, ttl := 300,
           payload := c9a, auth := true }]
        [] [] := by decide

/-- C9 (amended): for every successful query, the additional records are
    appended to the answer section itself — leaving the additional section
    empty — exactly when the queried name holds at least one CNAME record
    (whether or not the answer was replaced by the CNAME candidates); when
    the name holds no CNAME record, the additional section carries exactly
    the additional records computed from the answer and authority
    sections. -/
theorem c9_additional_section_placement (st : Store) (name cls : String)
    (type : RType) (ans auth add : List RRHeader)
    (h : lookup st name cls type = LookupResult.ok ans auth add) :
    (hasCName (recordsAt st name) = true → add = []) ∧
    (hasCName (recordsAt st name) = false →
      add = additionalRecords st ans auth) := by
  unfold lookup at h
  split at h
  · exact absurd h (by simp)
  next dz zname heq =>
    split at h
    · exact absurd h (by simp)
    next recs hrecs =>
      split at h
      · exact absurd h (by simp)
      next hemp =>
        have hrec : recordsAt st name = recs := by
          simp [recordsAt, heq, alGetD, hrecs]
        have hcn : (lookupLoop name zname type
            { results := [], authority := [], cnames := [], soa := none,
              lastTtl := none } recs).cnames = cnamesOf name recs := by
          rw [lookupLoop_cnames]
          rfl
        have hass := assembleResponse_additional st zname _ ans auth add h
        rw [hcn] at hass
        constructor
        · intro htrue
          refine hass.1 ?_
          rw [hrec] at htrue
          intro hnil
          rw [(cnamesOf_eq_nil_iff name recs).mp hnil] at htrue
          exact Bool.false_ne_true htrue
        · intro hfalse
          rw [hrec] at hfalse
          exact hass.2 ((cnamesOf_eq_nil_iff name recs).mpr hfalse)

def c9wahdr : RRHeader :=
  { name := "www.example.net", type := RType.A, ttl := 300,
    payload := ⟨RType.A, 300, ["5.5.5.5"]⟩, auth := true }

def c9wstore : Store :=
  ⟨[("example.net",
     [("example.net",
       [⟨RType.SOA, 300, ["ns.example.net", "admin.example.net", "1", "2", "3", "4", "5"]⟩]),
      ("www.example.net", [⟨RType.A, 300, ["5.5.5.5"]⟩])])], 0⟩

/-- C9 witness: the amended theorem applied to an A query for a name with
    no CNAME record: the additional section equals the computed additional
    records of the returned answer and authority. -/
theorem c9_additional_section_placement_witness :
    lookup c9wstore "www.example.net" "IN" RType.A =
      LookupResult.ok [c9wahdr] [] [] ∧
    hasCName (recordsAt c9wstore "www.example.net") = false ∧
    ([] : List RRHeader) = additionalRecords c9wstore [c9wahdr] [] :=
  ⟨by decide, by decide,
   (c9_additional_section_placement c9wstore "www.example.net" "IN" RType.A
     [c9wahdr] [] [] (by decide)).2 (by decide)⟩

-- ## C10: every record a synchronization cycle writes carries TTL 300.

theorem alGetD_nil_all {α : Type} (q : α → Bool) (m : List (String × List α))
    (k : String) (h : m.all (fun p => p.2.all q) = true) :
    (alGetD m k []).all q = true := by
  unfold alGetD
  cases hg : alGet m k with
  | none => simp
  | some v => simpa using alGet_all (fun p => p.2.all q) m k v h hg

/-- Inserting one TTL-300 record by the addRecord write pattern keeps the
    all-300 zone map invariant. -/
theorem zones_ttl300_insert (zs : List (String × ZoneData)) (z dom : String)
    (r : DRecord) (hr : (r.ttl == 300) = true)
    (h : zs.all (fun zz => zz.2.all fun o => o.2.all fun rec => rec.ttl == 300)
        = true) :
    (alSet zs z
      (alSet (alGetD zs z []) dom (alGetD (alGetD zs z []) dom [] ++ [r]))).all
        (fun zz => zz.2.all fun o => o.2.all fun rec => rec.ttl == 300)
      = true := by
  apply all_alSet _ _ _ _ h
  show (alSet (alGetD zs z []) dom
      (alGetD (alGetD zs z []) dom [] ++ [r])).all
        (fun o => o.2.all fun rec => rec.ttl == 300) = true
  have hzone : (alGetD zs z []).all
      (fun o => o.2.all fun rec => rec.ttl == 300) = true :=
    alGetD_nil_all _ zs z h
  apply all_alSet _ _ _ _ hzone
  show (alGetD (alGetD zs z []) dom [] ++ [r]).all
      (fun rec => rec.ttl == 300) = true
  rw [List.all_append]
  have hold : (alGetD (alGetD zs z []) dom []).all
      (fun rec => rec.ttl == 300) = true :=
    alGetD_nil_all _ (alGetD zs z []) dom hzone
  simp [hold, hr]

theorem addRecord_preserves_ttl300 (st : Store) (z t sub c rd : String)
    (h : allTtl300 st = true) :
    allTtl300 (addRecord st z 300 t sub c rd).1 = true := by
  unfold allTtl300 at h
  have hst1 :
      (if zoneTruthy st z then st
       else { st with zones := alSet st.zones z [] }).zones.all
        (fun zz => zz.2.all fun o => o.2.all fun r => r.ttl == 300) = true := by
    split
    · exact h
    · exact all_alSet _ st.zones z [] h (by simp)
  cases hrt : recordClassFor t with
  | none =>
    unfold allTtl300
    simp only [addRecord, hrt]
    exact hst1
  | some rt =>
    unfold allTtl300
    simp only [addRecord, hrt]
    split
    · exact zones_ttl300_insert _ z _ _ (by simp) hst1
    · exact hst1

theorem delZone_preserves_ttl300 (st : Store) (z : String)
    (h : allTtl300 st = true) : allTtl300 (delZone st z) = true := by
  unfold delZone
  split
  · unfold allTtl300 at h ⊢
    exact all_alDel _ st.zones z h
  · exact h

theorem applyLine_preserves_ttl300 (st : Store) (z line : String)
    (h : allTtl300 st = true) : allTtl300 (applyLine st z line).1 = true := by
  unfold applyLine
  split
  next t0 t1 t2 heq =>
    have h2 := addRecord_preserves_ttl300 st z t1 t0 "IN" t2 h
    split
    next st2 heq2 => rw [heq2] at h2; exact h2
    next st2 e heq2 => rw [heq2] at h2; exact h2
  next => exact h

theorem applyLines_preserves_ttl300 (z : String) (lines : List String) :
    ∀ st : Store, allTtl300 st = true →
      allTtl300 (applyLines st z lines).1 = true := by
  induction lines with
  | nil => intro st h; exact h
  | cons line rest ih =>
    intro st h
    unfold applyLines
    have h2 := applyLine_preserves_ttl300 st z line h
    split
    next st2 heq => exact ih st2 (by rw [heq] at h2; exact h2)
    next st2 e heq => rw [heq] at h2; exact h2

theorem applyZone_preserves_ttl300 (st : Store) (name : String)
    (info : ZoneUpdate) (h : allTtl300 st = true) :
    allTtl300 (applyZone st name info).1 = true := by
  unfold applyZone
  apply applyLines_preserves_ttl300
  apply delZone_preserves_ttl300
  exact h

/-- C10: a synchronization cycle writes every record through addRecord with
    the literal TTL 300 — the record-line format has no TTL field — so the
    invariant that every record in the store carries TTL exactly 300 is
    preserved by processing any sync response whatsoever, regardless of the
    content of the fetched record lines. -/
theorem c10_sync_ttl300 (data : List (String × ZoneUpdate)) :
    ∀ st : Store, allTtl300 st = true →
      allTtl300 (httpCallback st data).1 = true := by
  induction data with
  | nil => intro st h; exact h
  | cons p rest ih =>
    intro st h
    rcases p with ⟨name, info⟩
    unfold httpCallback
    have h2 := applyZone_preserves_ttl300 st name info h
    split
    next st2 heq => exact ih st2 (by rw [heq] at h2; exact h2)
    next st2 e heq => rw [heq] at h2; exact h2

/-- C10 witness: the invariant theorem applied to the empty store and a
    concrete sync response carrying an apex SOA and a subdomain A line. -/
theorem c10_sync_ttl300_witness :
    allTtl300 ⟨[], 0⟩ = true ∧
    allTtl300 (httpCallback ⟨[], 0⟩
      [("example.com",
        ⟨7, ["@ SOA ns.example.com admin.example.com 1 2 3 4 5",
             "www A 1.2.3.4"]⟩)]).1 = true :=
  ⟨by decide,
   c10_sync_ttl300
     [("example.com",
       ⟨7, ["@ SOA ns.example.com admin.example.com 1 2 3 4 5",
            "www A 1.2.3.4"]⟩)] ⟨[], 0⟩ (by decide)⟩

end Dnsforever
